import Mathlib

/-!
Verification development for the freud local-descriptor and
rotational-autocorrelation engines (`src/cpp/environment/LocalDescriptors.{h,cc}`
and `src/cpp/order/RotationalAutocorrelation.h`), as a shallow embedding:
floating-point values are modelled by real numbers, machine `unsigned int`
arithmetic by natural numbers reduced modulo 2^32, C++ exceptions by an error
option returned alongside the (possibly partially mutated) engine state, and
the external collaborators (box wrapping, eigensolver, spherical-harmonic
evaluator) by function parameters, following their contracts in the design
document.
-/

namespace Freud

/-! ## Spherical-harmonic coefficient counting -/

/-- Modelled from the spec: `fsph::sphCount(lmax)` is the number of (l,m)
spherical-harmonic coefficients with m ≥ 0 for l = 0..lmax (the fsph library is
an external collaborator whose source is not part of this unit). For each
degree l there are l+1 orders m = 0..l. -/
def sphCount (lmax : ℕ) : ℕ := ∑ l in Finset.range (lmax + 1), (l + 1)

/-- Embedding of `LocalDescriptors::getSphWidth` (LocalDescriptors.h, lines
69-72): `fsph::sphCount(m_lmax) + (m_lmax > 0 && m_negative_m ?
fsph::sphCount(m_lmax - 1) : 0)`. -/
def getSphWidth (lmax : ℕ) (negm : Bool) : ℕ :=
  sphCount lmax + (if 0 < lmax ∧ negm then sphCount (lmax - 1) else 0)

lemma two_mul_sphCount (n : ℕ) : 2 * sphCount n = (n + 1) * (n + 2) := by
  induction n with
  | zero => simp [sphCount]
  | succ n ih =>
    have hstep : sphCount (n + 1) = sphCount n + (n + 2) := by
      simp [sphCount, Finset.sum_range_succ]
    have hring : (n + 1 + 1) * (n + 1 + 2) = (n + 1) * (n + 2) + 2 * (n + 2) := by
      ring
    rw [hstep, hring, ← ih]
    ring

lemma sphCount_closed (n : ℕ) : sphCount n = (n + 1) * (n + 2) / 2 := by
  have h := two_mul_sphCount n
  generalize hk : (n + 1) * (n + 2) = k at h
  omega

/-! ## RotationalAutocorrelation: factorial cache and construction -/

/-- Entry i of the factorial cache built by the `RotationalAutocorrelation(l)`
constructor (RotationalAutocorrelation.h, lines 55-65): `m_factorials[0] = 1;
m_factorials[i] = i * m_factorials[i-1];` in C++ `unsigned int` arithmetic,
i.e. every multiplication is reduced modulo 2^32. -/
def factCacheEntry : ℕ → ℕ
  | 0 => 1
  | (i + 1) => ((i + 1) * factCacheEntry i) % 4294967296

/-- The whole factorial cache of `RotationalAutocorrelation(l)`: an array of
l+1 entries, entry i being `factCacheEntry i`. -/
def factCache (l : ℕ) : List ℕ := (List.range (l + 1)).map factCacheEntry

lemma factCacheEntry_eq_mod (i : ℕ) :
    factCacheEntry i = Nat.factorial i % 4294967296 := by
  induction i with
  | zero => simp [factCacheEntry, Nat.factorial]
  | succ i ih =>
    rw [factCacheEntry, ih, Nat.factorial_succ, Nat.mul_mod,
      Nat.mod_mod_of_dvd _ (by norm_num), ← Nat.mul_mod]

/-- State of a `RotationalAutocorrelation` instance. `none` models an
uninitialized scalar member or a null `shared_ptr`. -/
structure RAState where
  m_l : Option ℕ
  m_N : Option ℕ
  m_Ft : Option ℝ
  m_RA_array : Option (List Complex)
  m_factorials : Option (List ℕ)

/-- The default (no-argument) constructor `RotationalAutocorrelation() {}`
(RotationalAutocorrelation.h, line 50): no member initializer, so the scalar
members are left indeterminate and the two `shared_ptr` members are null. -/
def defaultRA : RAState :=
  { m_l := none, m_N := none, m_Ft := none, m_RA_array := none, m_factorials := none }

/-- The `RotationalAutocorrelation(l)` constructor (RotationalAutocorrelation.h,
lines 55-65): initializer list sets `m_l = l`, `m_N = 0`, `m_Ft = 0`; the body
allocates and fills the factorial cache; `m_RA_array` stays null. -/
def mkRA (l : ℕ) : RAState :=
  { m_l := some l, m_N := some 0, m_Ft := some 0, m_RA_array := none,
    m_factorials := some (factCache l) }

/-- Modelled from the spec: `RotationalAutocorrelation::compute` (declared in
RotationalAutocorrelation.h line 107; its body is outside this unit) overwrites
the stored N, the per-particle autocorrelation array and the scalar result,
reading but never writing the factorial cache; the per-particle harmonic inner
product is abstracted as the parameter `raOf`. -/
noncomputable def computeRA (raOf : ℕ → Complex) (N : ℕ) (s : RAState) : RAState :=
  { s with
    m_N := some N
    m_RA_array := some ((List.range N).map raOf)
    m_Ft := some ((((List.range N).map (fun i => (raOf i).re)).sum) / (N : ℝ)) }

/-! ## LocalDescriptors: vectors, neighbor list, frames, angles -/

/-- Real-valued model of `vec3<float>`. -/
structure Vec3 where
  x : ℝ
  y : ℝ
  z : ℝ

/-- Componentwise subtraction, `r_j - r_i`. -/
def vsub (a b : Vec3) : Vec3 := ⟨a.x - b.x, a.y - b.y, a.z - b.z⟩

/-- Dot product of `vec3`. -/
def dot (a b : Vec3) : ℝ := a.x * b.x + a.y * b.y + a.z * b.z

/-- Component i of a `vec3`, for indexing the 3×3 tensor model. -/
def comp (v : Vec3) (i : Fin 3) : ℝ :=
  if i = 0 then v.x else if i = 1 then v.y else v.z

/-- Real-valued model of `quat<float>` (scalar part `s`, vector part
`(x, y, z)`). -/
structure Quat where
  s : ℝ
  x : ℝ
  y : ℝ
  z : ℝ

/-- Quaternion conjugate `conj(q)`: negate the vector part. -/
def conjQ (q : Quat) : Quat := ⟨q.s, -q.x, -q.y, -q.z⟩

/-- A local coordinate frame: the three row vectors `rotation_0/1/2`. -/
structure Frame where
  rot0 : Vec3
  rot1 : Vec3
  rot2 : Vec3

/-- Projection of a bond vector into a frame (LocalDescriptors.cc line 127):
`bond_ij = (dot(rotation_0, rij), dot(rotation_1, rij), dot(rotation_2, rij))`. -/
def bondLocal (f : Frame) (v : Vec3) : Vec3 :=
  ⟨dot f.rot0 v, dot f.rot1 v, dot f.rot2 v⟩

/-- The identity frame used by the `Global` orientation mode
(LocalDescriptors.cc lines 107-112). -/
def globalFrame : Frame := ⟨⟨1, 0, 0⟩, ⟨0, 1, 0⟩, ⟨0, 0, 1⟩⟩

/-- Modelled from the spec: the rotation matrix of a quaternion (the
`rotmat3<float>(quat)` conversion lives in VectorMath.h, outside this unit);
standard unit-quaternion rotation matrix, `rowk` becoming `rotation_k`. -/
def quatFrame (q : Quat) : Frame :=
  let c := conjQ q
  ⟨⟨1 - 2 * (c.y ^ 2 + c.z ^ 2), 2 * (c.x * c.y - c.s * c.z), 2 * (c.x * c.z + c.s * c.y)⟩,
   ⟨2 * (c.x * c.y + c.s * c.z), 1 - 2 * (c.x ^ 2 + c.z ^ 2), 2 * (c.y * c.z - c.s * c.x)⟩,
   ⟨2 * (c.x * c.z - c.s * c.y), 2 * (c.y * c.z + c.s * c.x), 1 - 2 * (c.x ^ 2 + c.y ^ 2)⟩⟩

/-- Model of a 3×3 matrix (the packed `float[9]` arrays of the source, indexed
through `Index2D`), as a function of (row, column). -/
def Mat3 : Type := Fin 3 → Fin 3 → ℝ

/-- The external neighbor list: a flat sequence of (reference-index,
neighbor-index) bonds, grouped by ascending reference index. -/
structure NeighborList where
  bonds : List (ℕ × ℕ)

/-- Number of bonds, `NeighborList::getNumBonds()`. -/
def NeighborList.numBonds (nl : NeighborList) : ℕ := nl.bonds.length

/-- Modelled from the spec: `NeighborList::validate(Nref, Np)` (external to
this unit) fails when a bond endpoint is out of range, i.e. succeeds exactly
when every bond (i, j) has i < Nref and j < Np. -/
def validateNL (nl : NeighborList) (Nref Np : ℕ) : Bool :=
  nl.bonds.all (fun b => decide (b.1 < Nref) && decide (b.2 < Np))

/-- Modelled from the spec: `NeighborList::find_first_index(i)` returns the
first bond offset whose reference index is i, or the total bond count when i
has no bonds. -/
def findFirstIndex (bonds : List (ℕ × ℕ)) (i : ℕ) : ℕ :=
  bonds.findIdx (fun b => decide (b.1 = i))

/-- The bonds iterated for reference particle i (LocalDescriptors.cc lines
63-65 and 118-120): starting at `find_first_index(i)`, while the reference
index stays i and fewer than nNeigh bonds have been taken. -/
def collectBonds (bonds : List (ℕ × ℕ)) (i nNeigh : ℕ) : List (ℕ × ℕ) :=
  (((bonds.drop (findFirstIndex bonds i)).takeWhile (fun b => decide (b.1 = i))).take nNeigh)

/-- One accumulation step of the inertia-like tensor (LocalDescriptors.cc
lines 70-85): every diagonal entry gains `|rvec|²`, and the outer product
`rvec ⊗ rvec` is subtracted from every entry. -/
def inertiaStep (t : Mat3) (v : Vec3) : Mat3 :=
  fun ii jj => t ii jj + (if ii = jj then dot v v else 0) - comp v ii * comp v jj

/-- The zero-initialized tensor (LocalDescriptors.cc lines 59-61). -/
def zeroMat : Mat3 := fun _ _ => 0

/-- The accumulated inertia-like tensor over a list of bond vectors. -/
def inertiaFold (vs : List Vec3) : Mat3 := vs.foldl inertiaStep zeroMat

/-- The inertia-like tensor of reference particle i in `LocalNeighborhood`
mode: accumulated over the collected bonds of i, each displacement wrapped
through the box. -/
def lnTensor (wrap : Vec3 → Vec3) (bonds : List (ℕ × ℕ)) (r_ref r : ℕ → Vec3)
    (nNeigh i : ℕ) : Mat3 :=
  inertiaFold ((collectBonds bonds i nNeigh).map (fun b => wrap (vsub (r b.2) (r_ref i))))

/-- Extraction of the frame from the eigenvector matrix (LocalDescriptors.cc
lines 93-98): `rotation_k = (ev(0,k), ev(1,k), ev(2,k))`, i.e. column k of the
solver's output, in exactly the order the solver returns them. -/
def lnFrame (ev : Mat3) : Frame :=
  ⟨⟨ev 0 0, ev 1 0, ev 2 0⟩, ⟨ev 0 1, ev 1 1, ev 2 1⟩, ⟨ev 0 2, ev 1 2, ev 2 2⟩⟩

/-- Orientation-mode codes, in the order of the `LocalDescriptorOrientation`
enum (LocalDescriptors.h lines 20-25). -/
def localNeighborhood : ℕ := 0

/-- Code of the `Global` orientation mode. -/
def globalMode : ℕ := 1

/-- Code of the `ParticleLocal` orientation mode. -/
def particleLocal : ℕ := 2

/-- Frame construction for reference particle i (LocalDescriptors.cc lines
55-112): `LocalNeighborhood` diagonalizes the inertia-like tensor with the
external eigensolver `eig`; `ParticleLocal` uses the rotation matrix of the
conjugated reference orientation; `Global` uses the identity frame. -/
def frameOf (eig : Mat3 → Mat3) (wrap : Vec3 → Vec3) (bonds : List (ℕ × ℕ))
    (r_ref r : ℕ → Vec3) (nNeigh : ℕ) (q_ref : ℕ → Quat) (mode : ℕ) (i : ℕ) : Frame :=
  if mode = localNeighborhood then lnFrame (eig (lnTensor wrap bonds r_ref r nNeigh i))
  else if mode = particleLocal then quatFrame (q_ref i)
  else globalFrame

/-- Model of the C library `atan2(y, x)`, with range (-π, π]. -/
noncomputable def atan2R (y x : ℝ) : ℝ := Complex.arg ⟨x, y⟩

/-- Model of the C library `acos`: defined on [-1, 1], a not-a-number value
(modelled as `none`) outside it. -/
noncomputable def acosR (x : ℝ) : Option ℝ :=
  if -1 ≤ x ∧ x ≤ 1 then some (Real.arccos x) else none

/-- Azimuthal angle of a local bond vector (LocalDescriptors.cc lines
130-132): `theta = atan2(y, x)`, shifted into [0, 2π) by adding 2π when
negative. -/
noncomputable def thetaOf (v : Vec3) : ℝ :=
  let t := atan2R v.y v.x
  if t < 0 then t + 2 * Real.pi else t

/-- Polar angle (LocalDescriptors.cc lines 133-138): `phi = acos(z / magR)`;
when that is a not-a-number value (the ratio left [-1, 1]), clamp to 0 when
z > 0 and to π otherwise. -/
noncomputable def phiOf (z magR : ℝ) : ℝ :=
  (acosR (z / magR)).getD (if 0 < z then 0 else Real.pi)

/-! ## LocalDescriptors: engine state and `compute` -/

/-- Model of the error conditions `LocalDescriptors::compute` can raise: the
neighbor-list validation failure and the unsupported-orientation-mode throw
(LocalDescriptors.cc lines 33 and 113-116). -/
inductive ComputeError where
  | invalidArgument : ComputeError
  | unsupportedMode : ComputeError
deriving DecidableEq

/-- Mutable state of a `LocalDescriptors` instance: last stored reference
count `m_Nref`, last stored bond count `m_nSphs`, and the output buffer
`m_sphArray`, modelled by its capacity in complex slots (`bufCap`), an
allocation generation counter (`bufGen`, incremented whenever the
`shared_ptr` is reseated to a fresh allocation), and its per-bond rows
(`data`; `none` is an uninitialized/stale row). -/
structure LDState where
  m_Nref : ℕ
  m_nSphs : ℕ
  bufCap : ℕ
  bufGen : ℕ
  data : ℕ → Option (List Complex)

/-- A freshly constructed `LocalDescriptors` engine (LocalDescriptors.cc lines
24-26): `m_Nref = 0`, `m_nSphs = 0`, null buffer. -/
def initLD : LDState :=
  { m_Nref := 0, m_nSphs := 0, bufCap := 0, bufGen := 0, data := fun _ => none }

/-- The conditional reallocation at the top of `compute` (LocalDescriptors.cc
lines 36-41): when the stored bond count `m_nSphs` is smaller than the call's
bond count, reseat the buffer to a fresh allocation of
`numBonds * getSphWidth()` slots (contents uninitialized). -/
def reallocStep (s : LDState) (numBonds width : ℕ) : LDState :=
  if s.m_nSphs < numBonds then
    { s with bufCap := numBonds * width, bufGen := s.bufGen + 1, data := fun _ => none }
  else s

/-- The coefficient row written for one bond (LocalDescriptors.cc lines
122-142): wrapping and magnitude use the raw displacement `rij`, the angles
use the frame-projected local bond vector, and the external evaluator
`sphEval` is called at (phi, theta). -/
noncomputable def rowFor (sphEval : ℝ → ℝ → List Complex) (f : Frame) (rij : Vec3) :
    List Complex :=
  let magR := Real.sqrt (dot rij rij)
  let bij := bondLocal f rij
  sphEval (phiOf bij.z magR) (thetaOf bij)

/-- The buffer writes performed for reference particle i: one row per
collected bond, at row index `find_first_index(i) + position`
(LocalDescriptors.cc lines 118-143; row index = bond index, a row being
`getSphWidth()` consecutive complex slots at offset `bond * getSphWidth()`). -/
noncomputable def rowsOf (sphEval : ℝ → ℝ → List Complex) (wrap : Vec3 → Vec3)
    (bonds : List (ℕ × ℕ)) (r_ref r : ℕ → Vec3) (nNeigh : ℕ) (f : Frame) (i : ℕ) :
    List (ℕ × List Complex) :=
  (collectBonds bonds i nNeigh).enum.map
    (fun p => (findFirstIndex bonds i + p.1, rowFor sphEval f (wrap (vsub (r p.2.2) (r_ref i)))))

/-- Application of a list of row writes to the buffer contents. -/
def applyWrites (d : ℕ → Option (List Complex)) (ws : List (ℕ × List Complex)) :
    ℕ → Option (List Complex) :=
  ws.foldl (fun d w => Function.update d w.1 (some w.2)) d

/-- Embedding of `LocalDescriptors::compute` (LocalDescriptors.cc lines
28-150). Control flow in source order: `nlist->validate(Nref, Np)` throws
InvalidArgument before anything else; the buffer is conditionally reallocated;
the parallel loop over reference particles 0..Nref-1 throws UnsupportedMode on
an unrecognized orientation mode (before any row is written — so the throw is
reached only when Nref > 0) and otherwise writes one coefficient row per
iterated bond; finally `m_Nref` and `m_nSphs` are stored. A raised error is
returned alongside the state as mutated up to the throw. External
collaborators are parameters: `eig` the symmetric eigensolver (eigenvector
matrix), `sphEval` the spherical-harmonic evaluator, `wrap` the periodic box
wrap. -/
noncomputable def compute (lmax : ℕ) (negm : Bool) (eig : Mat3 → Mat3)
    (sphEval : ℝ → ℝ → List Complex) (wrap : Vec3 → Vec3) (nl : NeighborList)
    (nNeigh : ℕ) (r_ref : ℕ → Vec3) (Nref : ℕ) (r : ℕ → Vec3) (Np : ℕ)
    (q_ref : ℕ → Quat) (mode : ℕ) (s : LDState) : LDState × Option ComputeError :=
  if validateNL nl Nref Np = true then
    if 0 < Nref ∧ ¬(mode = localNeighborhood ∨ mode = particleLocal ∨ mode = globalMode) then
      (reallocStep s nl.numBonds (getSphWidth lmax negm), some ComputeError.unsupportedMode)
    else
      ({ reallocStep s nl.numBonds (getSphWidth lmax negm) with
          m_Nref := Nref
          m_nSphs := nl.numBonds
          data := applyWrites (reallocStep s nl.numBonds (getSphWidth lmax negm)).data
            ((List.range Nref).flatMap
              (fun i => rowsOf sphEval wrap nl.bonds r_ref r nNeigh
                (frameOf eig wrap nl.bonds r_ref r nNeigh q_ref mode i) i)) },
       none)
  else (s, some ComputeError.invalidArgument)

/-- Accessor `getNSphs()`: the stored total-bond count. -/
def getNSphs (s : LDState) : ℕ := s.m_nSphs

/-- Accessor `getNP()`: the stored reference-particle count. -/
def getNP (s : LDState) : ℕ := s.m_Nref

/-! ## Helper lemmas on `reallocStep` and `compute` -/

lemma reallocStep_m_Nref (s : LDState) (nb w : ℕ) :
    (reallocStep s nb w).m_Nref = s.m_Nref := by
  unfold reallocStep; split <;> rfl

lemma reallocStep_m_nSphs (s : LDState) (nb w : ℕ) :
    (reallocStep s nb w).m_nSphs = s.m_nSphs := by
  unfold reallocStep; split <;> rfl

lemma reallocStep_bufGen (s : LDState) (nb w : ℕ) :
    (reallocStep s nb w).bufGen = if s.m_nSphs < nb then s.bufGen + 1 else s.bufGen := by
  unfold reallocStep; split <;> simp_all

lemma reallocStep_bufCap (s : LDState) (nb w : ℕ) :
    (reallocStep s nb w).bufCap = if s.m_nSphs < nb then nb * w else s.bufCap := by
  unfold reallocStep; split <;> simp_all

section ComputeLemmas

variable (lmax : ℕ) (negm : Bool) (eig : Mat3 → Mat3) (sphEval : ℝ → ℝ → List Complex)
  (wrap : Vec3 → Vec3) (nl : NeighborList) (nNeigh : ℕ) (r_ref : ℕ → Vec3) (Nref : ℕ)
  (r : ℕ → Vec3) (Np : ℕ) (q_ref : ℕ → Quat) (mode : ℕ) (s : LDState)

lemma compute_validate_fail (h : validateNL nl Nref Np = false) :
    compute lmax negm eig sphEval wrap nl nNeigh r_ref Nref r Np q_ref mode s
      = (s, some ComputeError.invalidArgument) := by
  unfold compute
  rw [if_neg (by simp [h])]

lemma compute_bufGen (h : validateNL nl Nref Np = true) :
    (compute lmax negm eig sphEval wrap nl nNeigh r_ref Nref r Np q_ref mode s).1.bufGen
      = (reallocStep s nl.numBonds (getSphWidth lmax negm)).bufGen := by
  unfold compute
  rw [if_pos h]
  split <;> rfl

lemma compute_bufCap (h : validateNL nl Nref Np = true) :
    (compute lmax negm eig sphEval wrap nl nNeigh r_ref Nref r Np q_ref mode s).1.bufCap
      = (reallocStep s nl.numBonds (getSphWidth lmax negm)).bufCap := by
  unfold compute
  rw [if_pos h]
  split <;> rfl

lemma compute_ok_meta (h : validateNL nl Nref Np = true)
    (hm : (mode = localNeighborhood ∨ mode = particleLocal ∨ mode = globalMode) ∨ Nref = 0) :
    (compute lmax negm eig sphEval wrap nl nNeigh r_ref Nref r Np q_ref mode s).1.m_Nref = Nref
    ∧ (compute lmax negm eig sphEval wrap nl nNeigh r_ref Nref r Np q_ref mode s).1.m_nSphs
        = nl.numBonds
    ∧ (compute lmax negm eig sphEval wrap nl nNeigh r_ref Nref r Np q_ref mode s).2 = none := by
  have hc : ¬(0 < Nref
      ∧ ¬(mode = localNeighborhood ∨ mode = particleLocal ∨ mode = globalMode)) := by
    rcases hm with hm | hm
    · exact fun hcon => hcon.2 hm
    · exact fun hcon => by omega
  unfold compute
  rw [if_pos h, if_neg hc]
  exact ⟨rfl, rfl, rfl⟩

lemma compute_unsupported (h : validateNL nl Nref Np = true)
    (hm : ¬(mode = localNeighborhood ∨ mode = particleLocal ∨ mode = globalMode))
    (hn : 0 < Nref) :
    compute lmax negm eig sphEval wrap nl nNeigh r_ref Nref r Np q_ref mode s
      = (reallocStep s nl.numBonds (getSphWidth lmax negm),
         some ComputeError.unsupportedMode) := by
  unfold compute
  rw [if_pos h, if_pos ⟨hn, hm⟩]

lemma compute_error_meta (s' : LDState) (e : ComputeError)
    (h : compute lmax negm eig sphEval wrap nl nNeigh r_ref Nref r Np q_ref mode s
      = (s', some e)) :
    s'.m_Nref = s.m_Nref ∧ s'.m_nSphs = s.m_nSphs := by
  by_cases hv : validateNL nl Nref Np = true
  · by_cases hc : 0 < Nref
        ∧ ¬(mode = localNeighborhood ∨ mode = particleLocal ∨ mode = globalMode)
    · rw [compute_unsupported lmax negm eig sphEval wrap nl nNeigh r_ref Nref r Np q_ref
        mode s hv hc.2 hc.1] at h
      have h1 : reallocStep s nl.numBonds (getSphWidth lmax negm) = s' :=
        congrArg Prod.fst h
      rw [← h1]
      exact ⟨reallocStep_m_Nref s nl.numBonds (getSphWidth lmax negm),
        reallocStep_m_nSphs s nl.numBonds (getSphWidth lmax negm)⟩
    · have hm : (mode = localNeighborhood ∨ mode = particleLocal ∨ mode = globalMode)
          ∨ Nref = 0 := by
        by_cases hn : 0 < Nref
        · left
          by_contra hmm
          exact hc ⟨hn, hmm⟩
        · right; omega
      have hnone := (compute_ok_meta lmax negm eig sphEval wrap nl nNeigh r_ref Nref r Np
        q_ref mode s hv hm).2.2
      rw [h] at hnone
      exact absurd hnone (by simp)
  · have hfail := compute_validate_fail lmax negm eig sphEval wrap nl nNeigh r_ref Nref r Np
      q_ref mode s (by simpa using hv)
    rw [hfail] at h
    have h1 : s = s' := congrArg Prod.fst h
    rw [← h1]
    exact ⟨rfl, rfl⟩

end ComputeLemmas

/-! ## Claim theorems -/

/-- C2: for every lmax and negative_m, `LocalDescriptors::getSphWidth()`
equals the count of (l,m) coefficients with m ≥ 0 for l = 0..lmax, i.e.
(lmax+1)(lmax+2)/2, plus, exactly when negative_m is set and lmax > 0,
lmax(lmax+1)/2. -/
theorem getSphWidth_closed_form (lmax : ℕ) (negm : Bool) :
    getSphWidth lmax negm
      = (lmax + 1) * (lmax + 2) / 2
        + (if negm ∧ 0 < lmax then lmax * (lmax + 1) / 2 else 0) := by
  unfold getSphWidth
  rw [sphCount_closed]
  by_cases h : 0 < lmax ∧ negm = true
  · rw [if_pos h, if_pos ⟨h.2, h.1⟩, sphCount_closed]
    congr 1
    have h1 : lmax - 1 + 1 = lmax := by omega
    have h2 : lmax - 1 + 2 = lmax + 1 := by omega
    rw [h1, h2]
  · rw [if_neg h, if_neg (fun hc => h ⟨hc.2, hc.1⟩)]

/-- C8 counterexample: for l = 13, entry 13 of the factorial cache is
13! reduced modulo 2^32 (the C++ `unsigned int` wrap), which differs from the
mathematical 13! = 6227020800 — so the cache does not hold exact factorials
for every quantum number l. -/
theorem factCache_overflow_cex :
    (factCache 13)[13]? = some 1932053504
    ∧ Nat.factorial 13 = 6227020800
    ∧ factCacheEntry 13 ≠ Nat.factorial 13 := by
  refine ⟨by decide, by decide, by decide⟩

/-- C8 amended: after constructing RotationalAutocorrelation(l) the factorial
cache holds exactly l+1 entries, entry i being i! reduced modulo 2^32 (hence
the exact integer i! whenever i! < 2^32, in particular for every i when
l ≤ 12), and the cache is never mutated afterwards by the instance's compute
operation. -/
theorem factCache_entries_amended (l i N : ℕ) (raOf : ℕ → Complex) (h : i ≤ l) :
    (factCache l)[i]? = some (Nat.factorial i % 4294967296)
    ∧ (Nat.factorial i < 4294967296 → (factCache l)[i]? = some (Nat.factorial i))
    ∧ (factCache l).length = l + 1
    ∧ (computeRA raOf N (mkRA l)).m_factorials = (mkRA l).m_factorials := by
  have hget : (factCache l)[i]? = some (Nat.factorial i % 4294967296) := by
    rw [factCache, List.getElem?_map, List.getElem?_range (by omega)]
    simp [factCacheEntry_eq_mod]
  refine ⟨hget, fun hlt => ?_, by simp [factCache], rfl⟩
  rw [hget, Nat.mod_eq_of_lt hlt]

/-- C8 amended witness: instantiation at l = 3, i = 3 — the cache of
RotationalAutocorrelation(3) stores 3! = 6 (well below 2^32) at index 3, has
4 entries, and survives a compute call unchanged. -/
theorem factCache_entries_amended_witness :
    3 ≤ 3
    ∧ (factCache 3)[3]? = some (Nat.factorial 3 % 4294967296)
    ∧ (factCache 3)[3]? = some (Nat.factorial 3)
    ∧ (factCache 3).length = 3 + 1
    ∧ (computeRA (fun _ => 0) 2 (mkRA 3)).m_factorials = (mkRA 3).m_factorials :=
  ⟨by omega,
   (factCache_entries_amended 3 3 2 (fun _ => 0) (by omega)).1,
   (factCache_entries_amended 3 3 2 (fun _ => 0) (by omega)).2.1 (by norm_num
     [Nat.factorial]),
   (factCache_entries_amended 3 3 2 (fun _ => 0) (by omega)).2.2.1,
   (factCache_entries_amended 3 3 2 (fun _ => 0) (by omega)).2.2.2⟩

/-- C10: the default constructor of RotationalAutocorrelation initializes none
of its members — quantum number, stored N, scalar result, per-particle array
and factorial cache are all unset (null pointers for the arrays) — while the
RotationalAutocorrelation(l) constructor is the one establishing the
factorial-cache invariant (and sets N = 0, Ft = 0, leaving the result array
null). -/
theorem defaultRA_uninitialized (l : ℕ) :
    defaultRA.m_l = none ∧ defaultRA.m_N = none ∧ defaultRA.m_Ft = none
    ∧ defaultRA.m_RA_array = none ∧ defaultRA.m_factorials = none
    ∧ (mkRA l).m_l = some l ∧ (mkRA l).m_N = some 0 ∧ (mkRA l).m_Ft = some 0
    ∧ (mkRA l).m_RA_array = none
    ∧ (mkRA l).m_factorials = some (factCache l) :=
  ⟨rfl, rfl, rfl, rfl, rfl, rfl, rfl, rfl, rfl, rfl⟩

/-- C1: when the neighbor list fails to validate against (Nref, Np),
`LocalDescriptors::compute` fails with the InvalidArgument condition and
mutates no engine state (the returned state is exactly the prior state); and
for every failed call (whatever the error), the stored Nref and total-bond
metadata keep their prior values — they are written only after the whole pass
succeeds. -/
theorem compute_invalid_nlist_preserves_state (lmax : ℕ) (negm : Bool)
    (eig : Mat3 → Mat3) (sphEval : ℝ → ℝ → List Complex) (wrap : Vec3 → Vec3)
    (nl nl' : NeighborList) (nNeigh : ℕ) (r_ref : ℕ → Vec3) (Nref Nref' : ℕ)
    (r : ℕ → Vec3) (Np Np' : ℕ) (q_ref : ℕ → Quat) (mode mode' : ℕ)
    (s s' : LDState) (e : ComputeError)
    (hval : validateNL nl Nref Np = false)
    (herr : compute lmax negm eig sphEval wrap nl' nNeigh r_ref Nref' r Np' q_ref mode' s
      = (s', some e)) :
    compute lmax negm eig sphEval wrap nl nNeigh r_ref Nref r Np q_ref mode s
      = (s, some ComputeError.invalidArgument)
    ∧ s'.m_Nref = s.m_Nref ∧ s'.m_nSphs = s.m_nSphs :=
  ⟨compute_validate_fail lmax negm eig sphEval wrap nl nNeigh r_ref Nref r Np q_ref mode s
      hval,
   compute_error_meta lmax negm eig sphEval wrap nl' nNeigh r_ref Nref' r Np' q_ref mode' s
      s' e herr⟩

/-- C1 witness: a neighbor list with one bond (0,0) cannot validate against
Nref = 0, Np = 1; the call fails with InvalidArgument and the freshly
constructed engine state is returned untouched. -/
theorem compute_invalid_nlist_preserves_state_witness :
    compute 0 false (fun _ => zeroMat) (fun _ _ => []) id ⟨[(0, 0)]⟩ 1
        (fun _ => ⟨0, 0, 0⟩) 0 (fun _ => ⟨0, 0, 0⟩) 1 (fun _ => ⟨1, 0, 0, 0⟩)
        globalMode initLD
      = (initLD, some ComputeError.invalidArgument)
    ∧ initLD.m_Nref = initLD.m_Nref ∧ initLD.m_nSphs = initLD.m_nSphs :=
  compute_invalid_nlist_preserves_state 0 false (fun _ => zeroMat) (fun _ _ => []) id
    ⟨[(0, 0)]⟩ ⟨[(0, 0)]⟩ 1 (fun _ => ⟨0, 0, 0⟩) 0 0 (fun _ => ⟨0, 0, 0⟩) 1 1
    (fun _ => ⟨1, 0, 0, 0⟩) globalMode globalMode initLD initLD
    ComputeError.invalidArgument (by rfl) (by rfl)

/-- C4 counterexample: 3 is not one of the three orientation-mode codes, yet a
call with mode 3 and Nref = 0 (empty neighbor list) succeeds — the
unsupported-mode throw sits inside the per-reference-particle loop body, which
never runs — contradicting the claim that every call with an unlisted mode
fails with UnsupportedMode. -/
theorem compute_unsupported_mode_cex :
    ((3 : ℕ) ≠ localNeighborhood ∧ (3 : ℕ) ≠ particleLocal ∧ (3 : ℕ) ≠ globalMode)
    ∧ (compute 0 false (fun _ => zeroMat) (fun _ _ => []) id ⟨[]⟩ 0
        (fun _ => ⟨0, 0, 0⟩) 0 (fun _ => ⟨0, 0, 0⟩) 0 (fun _ => ⟨1, 0, 0, 0⟩) 3
        initLD).2 = none :=
  ⟨by decide, rfl⟩

/-- C4 amended: a call with an orientation-mode value other than
LocalNeighborhood, ParticleLocal or Global fails with the UnsupportedMode
condition only when Nref > 0 (with Nref = 0 the per-particle loop never runs
and the call succeeds); on that failure the stored Nref and total-bond count
keep their prior values, but the output buffer has already been conditionally
reallocated (old contents discarded whenever the call's bond count exceeds the
stored one), since the reallocation precedes the per-particle throw. -/
theorem compute_unsupported_mode_amended (lmax : ℕ) (negm : Bool)
    (eig : Mat3 → Mat3) (sphEval : ℝ → ℝ → List Complex) (wrap : Vec3 → Vec3)
    (nl : NeighborList) (nNeigh : ℕ) (r_ref : ℕ → Vec3) (Nref : ℕ) (r : ℕ → Vec3)
    (Np : ℕ) (q_ref : ℕ → Quat) (mode : ℕ) (s : LDState)
    (hval : validateNL nl Nref Np = true)
    (hm : ¬(mode = localNeighborhood ∨ mode = particleLocal ∨ mode = globalMode))
    (hn : 0 < Nref) :
    compute lmax negm eig sphEval wrap nl nNeigh r_ref Nref r Np q_ref mode s
      = (reallocStep s nl.numBonds (getSphWidth lmax negm),
         some ComputeError.unsupportedMode)
    ∧ (compute lmax negm eig sphEval wrap nl nNeigh r_ref Nref r Np q_ref mode s).1.m_Nref
        = s.m_Nref
    ∧ (compute lmax negm eig sphEval wrap nl nNeigh r_ref Nref r Np q_ref mode s).1.m_nSphs
        = s.m_nSphs := by
  have h := compute_unsupported lmax negm eig sphEval wrap nl nNeigh r_ref Nref r Np q_ref
    mode s hval hm hn
  refine ⟨h, ?_, ?_⟩ <;> rw [h]
  · exact reallocStep_m_Nref s nl.numBonds (getSphWidth lmax negm)
  · exact reallocStep_m_nSphs s nl.numBonds (getSphWidth lmax negm)

/-- C4 amended witness: mode 3, one reference particle, one bond — the call
fails with UnsupportedMode, metadata is preserved, and the returned state is
the reallocation-stepped one. -/
theorem compute_unsupported_mode_amended_witness :
    compute 0 false (fun _ => zeroMat) (fun _ _ => []) id ⟨[(0, 0)]⟩ 1
        (fun _ => ⟨0, 0, 0⟩) 1 (fun _ => ⟨0, 0, 0⟩) 1 (fun _ => ⟨1, 0, 0, 0⟩) 3 initLD
      = (reallocStep initLD (NeighborList.numBonds ⟨[(0, 0)]⟩) (getSphWidth 0 false),
         some ComputeError.unsupportedMode)
    ∧ (compute 0 false (fun _ => zeroMat) (fun _ _ => []) id ⟨[(0, 0)]⟩ 1
        (fun _ => ⟨0, 0, 0⟩) 1 (fun _ => ⟨0, 0, 0⟩) 1 (fun _ => ⟨1, 0, 0, 0⟩) 3
        initLD).1.m_Nref = initLD.m_Nref
    ∧ (compute 0 false (fun _ => zeroMat) (fun _ _ => []) id ⟨[(0, 0)]⟩ 1
        (fun _ => ⟨0, 0, 0⟩) 1 (fun _ => ⟨0, 0, 0⟩) 1 (fun _ => ⟨1, 0, 0, 0⟩) 3
        initLD).1.m_nSphs = initLD.m_nSphs :=
  compute_unsupported_mode_amended 0 false (fun _ => zeroMat) (fun _ _ => []) id
    ⟨[(0, 0)]⟩ 1 (fun _ => ⟨0, 0, 0⟩) 1 (fun _ => ⟨0, 0, 0⟩) 1 (fun _ => ⟨1, 0, 0, 0⟩)
    3 initLD (by rfl) (by decide) (by omega)

/-- Width of the descriptor rows in the buffer counterexample configuration
(lmax = 0, negative_m disabled): one coefficient. -/
lemma getSphWidth_zero_false : getSphWidth 0 false = 1 := by decide

/-- One concrete successful `compute` call for the buffer high-water-mark
counterexample: lmax = 0, Global mode, one reference particle and one point,
all bonds (0,0); only the bond list (hence the bond count) varies. -/
noncomputable def cexCall (bs : List (ℕ × ℕ)) (s : LDState) : LDState :=
  (compute 0 false (fun _ => zeroMat) (fun _ _ => []) id ⟨bs⟩ 1 (fun _ => ⟨0, 0, 0⟩) 1
    (fun _ => ⟨0, 0, 0⟩) 1 (fun _ => ⟨1, 0, 0, 0⟩) globalMode s).1

/-- Engine state after a first call with 3 bonds. -/
noncomputable def cexS1 : LDState := cexCall [(0, 0), (0, 0), (0, 0)] initLD

/-- Engine state after a second call with 1 bond. -/
noncomputable def cexS2 : LDState := cexCall [(0, 0)] cexS1

/-- Engine state after a third call with 2 bonds. -/
noncomputable def cexS3 : LDState := cexCall [(0, 0), (0, 0)] cexS2

/-- C3 counterexample: bond counts 3, then 1, then 2. The second call reuses
the buffer (generation stays 1) as claimed, but the third call — whose bond
count 2 is at or below the largest bond count 3 seen so far — reallocates
(generation 2) because the code compares against the previous call's stored
bond count, and the new capacity 2·sphWidth is smaller than the 3·sphWidth it
replaces, so capacity is neither a high-water mark nor non-shrinking. -/
theorem compute_highwater_cex :
    cexS1.bufGen = 1 ∧ cexS1.m_nSphs = 3
    ∧ cexS2.bufGen = 1 ∧ cexS2.m_nSphs = 1
    ∧ cexS3.bufGen = 2
    ∧ cexS3.bufCap = 2 * getSphWidth 0 false
    ∧ cexS2.bufCap = 3 * getSphWidth 0 false
    ∧ cexS3.bufCap < cexS2.bufCap := by
  refine ⟨rfl, rfl, rfl, rfl, rfl, rfl, rfl, ?_⟩
  have h3 : cexS3.bufCap = 2 * getSphWidth 0 false := rfl
  have h2 : cexS2.bufCap = 3 * getSphWidth 0 false := rfl
  rw [h3, h2, getSphWidth_zero_false]
  omega

/-- C3 amended: a call reallocates the descriptor buffer exactly when its bond
count exceeds the bond count stored by the immediately preceding call (not the
largest seen so far, and not what the existing buffer can hold). Consequently,
for two successive calls with bond counts B1 then B2 ≤ B1 the second call
performs no reallocation and reports exactly B2 bonds while capacity remains
at B1·sphWidth; but a later call may reallocate — and shrink the capacity —
even when its bond count stays at or below the largest bond count seen so far. -/
theorem compute_buffer_reuse_amended (lmax : ℕ) (negm : Bool) (eig : Mat3 → Mat3)
    (sphEval : ℝ → ℝ → List Complex) (wrap : Vec3 → Vec3) (nl1 nl2 : NeighborList)
    (nNeigh : ℕ) (r_ref : ℕ → Vec3) (Nref1 Nref2 : ℕ) (r : ℕ → Vec3) (Np1 Np2 : ℕ)
    (q_ref : ℕ → Quat) (mode1 mode2 : ℕ) (s t : LDState)
    (hval1 : validateNL nl1 Nref1 Np1 = true)
    (hm1 : (mode1 = localNeighborhood ∨ mode1 = particleLocal ∨ mode1 = globalMode)
      ∨ Nref1 = 0)
    (hval2 : validateNL nl2 Nref2 Np2 = true)
    (hm2 : (mode2 = localNeighborhood ∨ mode2 = particleLocal ∨ mode2 = globalMode)
      ∨ Nref2 = 0)
    (hB : nl2.numBonds ≤ nl1.numBonds) :
    getNSphs (compute lmax negm eig sphEval wrap nl1 nNeigh r_ref Nref1 r Np1 q_ref mode1
        s).1 = nl1.numBonds
    ∧ (compute lmax negm eig sphEval wrap nl2 nNeigh r_ref Nref2 r Np2 q_ref mode2
        (compute lmax negm eig sphEval wrap nl1 nNeigh r_ref Nref1 r Np1 q_ref mode1
          s).1).1.bufGen
      = (compute lmax negm eig sphEval wrap nl1 nNeigh r_ref Nref1 r Np1 q_ref mode1
          s).1.bufGen
    ∧ (compute lmax negm eig sphEval wrap nl2 nNeigh r_ref Nref2 r Np2 q_ref mode2
        (compute lmax negm eig sphEval wrap nl1 nNeigh r_ref Nref1 r Np1 q_ref mode1
          s).1).1.bufCap
      = (compute lmax negm eig sphEval wrap nl1 nNeigh r_ref Nref1 r Np1 q_ref mode1
          s).1.bufCap
    ∧ getNSphs (compute lmax negm eig sphEval wrap nl2 nNeigh r_ref Nref2 r Np2 q_ref mode2
        (compute lmax negm eig sphEval wrap nl1 nNeigh r_ref Nref1 r Np1 q_ref mode1
          s).1).1 = nl2.numBonds
    ∧ (s.m_nSphs < nl1.numBonds →
        (compute lmax negm eig sphEval wrap nl1 nNeigh r_ref Nref1 r Np1 q_ref mode1
          s).1.bufCap = nl1.numBonds * getSphWidth lmax negm)
    ∧ (compute lmax negm eig sphEval wrap nl2 nNeigh r_ref Nref2 r Np2 q_ref mode2
        t).1.bufGen
      = (if t.m_nSphs < nl2.numBonds then t.bufGen + 1 else t.bufGen)
    ∧ (compute lmax negm eig sphEval wrap nl2 nNeigh r_ref Nref2 r Np2 q_ref mode2
        t).1.bufCap
      = (if t.m_nSphs < nl2.numBonds then nl2.numBonds * getSphWidth lmax negm
         else t.bufCap) := by
  have hmeta1 := compute_ok_meta lmax negm eig sphEval wrap nl1 nNeigh r_ref Nref1 r Np1
    q_ref mode1 s hval1 hm1
  have hmeta2 := compute_ok_meta lmax negm eig sphEval wrap nl2 nNeigh r_ref Nref2 r Np2
    q_ref mode2 (compute lmax negm eig sphEval wrap nl1 nNeigh r_ref Nref1 r Np1 q_ref
      mode1 s).1 hval2 hm2
  have hnotlt : ¬(compute lmax negm eig sphEval wrap nl1 nNeigh r_ref Nref1 r Np1 q_ref
      mode1 s).1.m_nSphs < nl2.numBonds := by
    rw [hmeta1.2.1]; omega
  refine ⟨hmeta1.2.1, ?_, ?_, hmeta2.2.1, ?_, ?_, ?_⟩
  · rw [compute_bufGen lmax negm eig sphEval wrap nl2 nNeigh r_ref Nref2 r Np2 q_ref mode2
      _ hval2, reallocStep_bufGen, if_neg hnotlt]
  · rw [compute_bufCap lmax negm eig sphEval wrap nl2 nNeigh r_ref Nref2 r Np2 q_ref mode2
      _ hval2, reallocStep_bufCap, if_neg hnotlt]
  · intro hlt
    rw [compute_bufCap lmax negm eig sphEval wrap nl1 nNeigh r_ref Nref1 r Np1 q_ref mode1
      s hval1, reallocStep_bufCap, if_pos hlt]
  · rw [compute_bufGen lmax negm eig sphEval wrap nl2 nNeigh r_ref Nref2 r Np2 q_ref mode2
      t hval2, reallocStep_bufGen]
  · rw [compute_bufCap lmax negm eig sphEval wrap nl2 nNeigh r_ref Nref2 r Np2 q_ref mode2
      t hval2, reallocStep_bufCap]

/-- C3 amended witness: first call with 3 bonds, second with 1 bond, from a
fresh engine: the second call reuses the buffer (same generation and
capacity), reports 1 bond, and the first call's capacity is 3·sphWidth. -/
theorem compute_buffer_reuse_amended_witness :
    getNSphs (compute 0 false (fun _ => zeroMat) (fun _ _ => []) id
        ⟨[(0, 0), (0, 0), (0, 0)]⟩ 1 (fun _ => ⟨0, 0, 0⟩) 1 (fun _ => ⟨0, 0, 0⟩) 1
        (fun _ => ⟨1, 0, 0, 0⟩) globalMode initLD).1 = NeighborList.numBonds
          ⟨[(0, 0), (0, 0), (0, 0)]⟩
    ∧ (compute 0 false (fun _ => zeroMat) (fun _ _ => []) id ⟨[(0, 0)]⟩ 1
        (fun _ => ⟨0, 0, 0⟩) 1 (fun _ => ⟨0, 0, 0⟩) 1 (fun _ => ⟨1, 0, 0, 0⟩) globalMode
        (compute 0 false (fun _ => zeroMat) (fun _ _ => []) id
          ⟨[(0, 0), (0, 0), (0, 0)]⟩ 1 (fun _ => ⟨0, 0, 0⟩) 1 (fun _ => ⟨0, 0, 0⟩) 1
          (fun _ => ⟨1, 0, 0, 0⟩) globalMode initLD).1).1.bufGen
      = (compute 0 false (fun _ => zeroMat) (fun _ _ => []) id
          ⟨[(0, 0), (0, 0), (0, 0)]⟩ 1 (fun _ => ⟨0, 0, 0⟩) 1 (fun _ => ⟨0, 0, 0⟩) 1
          (fun _ => ⟨1, 0, 0, 0⟩) globalMode initLD).1.bufGen
    ∧ (compute 0 false (fun _ => zeroMat) (fun _ _ => []) id ⟨[(0, 0)]⟩ 1
        (fun _ => ⟨0, 0, 0⟩) 1 (fun _ => ⟨0, 0, 0⟩) 1 (fun _ => ⟨1, 0, 0, 0⟩) globalMode
        (compute 0 false (fun _ => zeroMat) (fun _ _ => []) id
          ⟨[(0, 0), (0, 0), (0, 0)]⟩ 1 (fun _ => ⟨0, 0, 0⟩) 1 (fun _ => ⟨0, 0, 0⟩) 1
          (fun _ => ⟨1, 0, 0, 0⟩) globalMode initLD).1).1.bufCap
      = (compute 0 false (fun _ => zeroMat) (fun _ _ => []) id
          ⟨[(0, 0), (0, 0), (0, 0)]⟩ 1 (fun _ => ⟨0, 0, 0⟩) 1 (fun _ => ⟨0, 0, 0⟩) 1
          (fun _ => ⟨1, 0, 0, 0⟩) globalMode initLD).1.bufCap
    ∧ getNSphs (compute 0 false (fun _ => zeroMat) (fun _ _ => []) id ⟨[(0, 0)]⟩ 1
        (fun _ => ⟨0, 0, 0⟩) 1 (fun _ => ⟨0, 0, 0⟩) 1 (fun _ => ⟨1, 0, 0, 0⟩) globalMode
        (compute 0 false (fun _ => zeroMat) (fun _ _ => []) id
          ⟨[(0, 0), (0, 0), (0, 0)]⟩ 1 (fun _ => ⟨0, 0, 0⟩) 1 (fun _ => ⟨0, 0, 0⟩) 1
          (fun _ => ⟨1, 0, 0, 0⟩) globalMode initLD).1).1
      = NeighborList.numBonds ⟨[(0, 0)]⟩
    ∧ (compute 0 false (fun _ => zeroMat) (fun _ _ => []) id
          ⟨[(0, 0), (0, 0), (0, 0)]⟩ 1 (fun _ => ⟨0, 0, 0⟩) 1 (fun _ => ⟨0, 0, 0⟩) 1
          (fun _ => ⟨1, 0, 0, 0⟩) globalMode initLD).1.bufCap
        = NeighborList.numBonds ⟨[(0, 0), (0, 0), (0, 0)]⟩ * getSphWidth 0 false
    ∧ (compute 0 false (fun _ => zeroMat) (fun _ _ => []) id ⟨[(0, 0)]⟩ 1
        (fun _ => ⟨0, 0, 0⟩) 1 (fun _ => ⟨0, 0, 0⟩) 1 (fun _ => ⟨1, 0, 0, 0⟩) globalMode
        initLD).1.bufGen
      = (if initLD.m_nSphs < NeighborList.numBonds ⟨[(0, 0)]⟩ then initLD.bufGen + 1
         else initLD.bufGen)
    ∧ (compute 0 false (fun _ => zeroMat) (fun _ _ => []) id ⟨[(0, 0)]⟩ 1
        (fun _ => ⟨0, 0, 0⟩) 1 (fun _ => ⟨0, 0, 0⟩) 1 (fun _ => ⟨1, 0, 0, 0⟩) globalMode
        initLD).1.bufCap
      = (if initLD.m_nSphs < NeighborList.numBonds ⟨[(0, 0)]⟩ then
          NeighborList.numBonds ⟨[(0, 0)]⟩ * getSphWidth 0 false
         else initLD.bufCap) := by
  have h := compute_buffer_reuse_amended 0 false (fun _ => zeroMat) (fun _ _ => []) id
    ⟨[(0, 0), (0, 0), (0, 0)]⟩ ⟨[(0, 0)]⟩ 1 (fun _ => ⟨0, 0, 0⟩) 1 1
    (fun _ => ⟨0, 0, 0⟩) 1 1 (fun _ => ⟨1, 0, 0, 0⟩) globalMode globalMode initLD initLD
    (by rfl) (Or.inl (Or.inr (Or.inr rfl))) (by rfl) (Or.inl (Or.inr (Or.inr rfl)))
    (by decide)
  exact ⟨h.1, h.2.1, h.2.2.1, h.2.2.2.1, h.2.2.2.2.1 (by decide),
    h.2.2.2.2.2.1, h.2.2.2.2.2.2⟩

/-- C9: in the LocalNeighborhood and Global orientation modes the
reference-orientation array q_ref is never consulted: two calls identical
except for q_ref produce identical results (state and error alike). -/
theorem compute_ignores_qref (lmax : ℕ) (negm : Bool) (eig : Mat3 → Mat3)
    (sphEval : ℝ → ℝ → List Complex) (wrap : Vec3 → Vec3) (nl : NeighborList)
    (nNeigh : ℕ) (r_ref : ℕ → Vec3) (Nref : ℕ) (r : ℕ → Vec3) (Np : ℕ)
    (qA qB : ℕ → Quat) (mode : ℕ) (s : LDState)
    (h : mode = localNeighborhood ∨ mode = globalMode) :
    compute lmax negm eig sphEval wrap nl nNeigh r_ref Nref r Np qA mode s
      = compute lmax negm eig sphEval wrap nl nNeigh r_ref Nref r Np qB mode s := by
  have hf : frameOf eig wrap nl.bonds r_ref r nNeigh qA mode
      = frameOf eig wrap nl.bonds r_ref r nNeigh qB mode := by
    funext i
    rcases h with rfl | rfl
    · rfl
    · rfl
  unfold compute
  rw [hf]

/-- C9 witness: two calls in Global mode with two different orientation arrays
return the same result. -/
theorem compute_ignores_qref_witness :
    compute 0 false (fun _ => zeroMat) (fun _ _ => []) id ⟨[(0, 0)]⟩ 1
        (fun _ => ⟨0, 0, 0⟩) 1 (fun _ => ⟨0, 0, 0⟩) 1 (fun _ => ⟨1, 0, 0, 0⟩)
        globalMode initLD
      = compute 0 false (fun _ => zeroMat) (fun _ _ => []) id ⟨[(0, 0)]⟩ 1
        (fun _ => ⟨0, 0, 0⟩) 1 (fun _ => ⟨0, 0, 0⟩) 1 (fun _ => ⟨0, 1, 0, 0⟩)
        globalMode initLD :=
  compute_ignores_qref 0 false (fun _ => zeroMat) (fun _ _ => []) id ⟨[(0, 0)]⟩ 1
    (fun _ => ⟨0, 0, 0⟩) 1 (fun _ => ⟨0, 0, 0⟩) 1 (fun _ => ⟨1, 0, 0, 0⟩)
    (fun _ => ⟨0, 1, 0, 0⟩) globalMode initLD (Or.inr rfl)

/-- C5: for a bond exactly aligned with the local z-axis (ratio z/magR = ±1)
the polar angle is 0 (positive alignment) or π (negative alignment), and when
the ratio leaves [-1, 1] by floating-point error — which with magR > 0 forces
the matching sign of z — the not-a-number guard clamps the angle
deterministically to 0 when z > 0 and to π otherwise; in every case the
result is a real number, never a not-a-number value. -/
theorem phiOf_clamp (z magR : ℝ) (h : 0 < magR) :
    (z = magR → phiOf z magR = 0)
    ∧ (z = -magR → phiOf z magR = Real.pi)
    ∧ (1 < z / magR → 0 < z ∧ phiOf z magR = 0)
    ∧ (z / magR < -1 → ¬0 < z ∧ phiOf z magR = Real.pi) := by
  have hne : magR ≠ 0 := ne_of_gt h
  refine ⟨?_, ?_, ?_, ?_⟩
  · rintro rfl
    unfold phiOf acosR
    rw [div_self hne, if_pos (by norm_num)]
    simp [Real.arccos_one]
  · rintro rfl
    unfold phiOf acosR
    rw [neg_div, div_self hne, if_pos (by norm_num)]
    simp [Real.arccos_neg_one]
  · intro hgt
    have hz : 0 < z := by
      have hlt : magR < z := (one_lt_div h).mp hgt
      linarith
    refine ⟨hz, ?_⟩
    unfold phiOf acosR
    rw [if_neg (fun hc => absurd hgt (not_lt.mpr hc.2)), Option.getD_none, if_pos hz]
  · intro hlt
    have hz : ¬0 < z := by
      have hzz : z < -1 * magR := (div_lt_iff₀ h).mp hlt
      intro hcon
      nlinarith
    refine ⟨hz, ?_⟩
    unfold phiOf acosR
    rw [if_neg (fun hc => absurd hlt (not_lt.mpr hc.1)), Option.getD_none, if_neg hz]

/-- C5 witness: at z = 2, magR = 1 the ratio 2 exceeds 1, so the clamp fires
and yields polar angle 0; at z = 1, magR = 1 the bond is exactly aligned with
the positive z-axis and the angle is 0; at z = -1, magR = 1 it is π. -/
theorem phiOf_clamp_witness :
    (0 : ℝ) < 1
    ∧ phiOf 2 1 = 0
    ∧ phiOf 1 1 = 0
    ∧ phiOf (-1) 1 = Real.pi :=
  ⟨by norm_num,
   ((phiOf_clamp 2 1 (by norm_num)).2.2.1 (by norm_num)).2,
   (phiOf_clamp 1 1 (by norm_num)).1 rfl,
   (phiOf_clamp (-1) 1 (by norm_num)).2.1 (by norm_num)⟩

/-- C6: in Global mode the frame is the identity basis, projecting a wrapped
displacement onto it returns the displacement itself, so the (theta, phi) pair
passed to the harmonic evaluator equals the spherical coordinates of the raw
wrapped displacement — no rotation is applied. -/
theorem global_mode_identity (rij : Vec3) (eig : Mat3 → Mat3) (wrap : Vec3 → Vec3)
    (bonds : List (ℕ × ℕ)) (r_ref r : ℕ → Vec3) (nNeigh : ℕ) (q_ref : ℕ → Quat)
    (i : ℕ) (magR : ℝ) (sphEval : ℝ → ℝ → List Complex) :
    frameOf eig wrap bonds r_ref r nNeigh q_ref globalMode i = globalFrame
    ∧ bondLocal globalFrame rij = rij
    ∧ thetaOf (bondLocal globalFrame rij) = thetaOf rij
    ∧ phiOf (bondLocal globalFrame rij).z magR = phiOf rij.z magR
    ∧ rowFor sphEval globalFrame rij
        = sphEval (phiOf rij.z (Real.sqrt (dot rij rij))) (thetaOf rij) := by
  have hb : bondLocal globalFrame rij = rij := by
    cases rij
    simp only [bondLocal, globalFrame, dot, Vec3.mk.injEq]
    refine ⟨by ring, by ring, by ring⟩
  refine ⟨rfl, hb, by rw [hb], by rw [hb], ?_⟩
  unfold rowFor
  rw [hb]

lemma inertiaFold_entry (vs : List Vec3) (t0 : Mat3) (ii jj : Fin 3) :
    (vs.foldl inertiaStep t0) ii jj
      = t0 ii jj + (vs.map (fun v =>
          (if ii = jj then dot v v else 0) - comp v ii * comp v jj)).sum := by
  induction vs generalizing t0 with
  | nil => simp
  | cons v vs ih =>
    rw [List.foldl_cons, ih]
    unfold inertiaStep
    rw [List.map_cons, List.sum_cons]
    ring

/-- C7: in LocalNeighborhood mode the frame of reference particle i comes from
accumulating, over the collected bonds of i — at most nNeigh of them, all with
reference index i — a symmetric 3×3 tensor whose each diagonal entry gains
|rvec|² and from whose every entry the outer product rvec⊗rvec is subtracted;
the tensor goes to the external eigensolver and the three returned eigenvector
columns become rotation_0/1/2 in exactly the order the solver returns them. -/
theorem local_neighborhood_frame_spec (wrap : Vec3 → Vec3) (bonds : List (ℕ × ℕ))
    (r_ref r : ℕ → Vec3) (nNeigh i : ℕ) (eig : Mat3 → Mat3) (q_ref : ℕ → Quat)
    (ii jj : Fin 3) (t : Mat3) :
    (collectBonds bonds i nNeigh).length ≤ nNeigh
    ∧ (collectBonds bonds i nNeigh).all (fun b => decide (b.1 = i)) = true
    ∧ lnTensor wrap bonds r_ref r nNeigh i ii jj
        = ((collectBonds bonds i nNeigh).map (fun b =>
            (if ii = jj then dot (wrap (vsub (r b.2) (r_ref i)))
                (wrap (vsub (r b.2) (r_ref i))) else 0)
            - comp (wrap (vsub (r b.2) (r_ref i))) ii
              * comp (wrap (vsub (r b.2) (r_ref i))) jj)).sum
    ∧ lnTensor wrap bonds r_ref r nNeigh i ii jj = lnTensor wrap bonds r_ref r nNeigh i jj ii
    ∧ frameOf eig wrap bonds r_ref r nNeigh q_ref localNeighborhood i
        = lnFrame (eig (lnTensor wrap bonds r_ref r nNeigh i))
    ∧ (lnFrame (eig t)).rot0 = ⟨eig t 0 0, eig t 1 0, eig t 2 0⟩
    ∧ (lnFrame (eig t)).rot1 = ⟨eig t 0 1, eig t 1 1, eig t 2 1⟩
    ∧ (lnFrame (eig t)).rot2 = ⟨eig t 0 2, eig t 1 2, eig t 2 2⟩ := by
  have hform : ∀ a b : Fin 3, lnTensor wrap bonds r_ref r nNeigh i a b
      = ((collectBonds bonds i nNeigh).map (fun bd =>
          (if a = b then dot (wrap (vsub (r bd.2) (r_ref i)))
              (wrap (vsub (r bd.2) (r_ref i))) else 0)
          - comp (wrap (vsub (r bd.2) (r_ref i))) a
            * comp (wrap (vsub (r bd.2) (r_ref i))) b)).sum := by
    intro a b
    unfold lnTensor inertiaFold
    rw [inertiaFold_entry, List.map_map]
    simp only [zeroMat, zero_add]
    rfl
  refine ⟨?_, ?_, hform ii jj, ?_, rfl, rfl, rfl, rfl⟩
  · unfold collectBonds
    rw [List.length_take]
    exact min_le_left _ _
  · unfold collectBonds
    rw [List.all_eq_true]
    intro b hb
    have hsub : b ∈ (bonds.drop (findFirstIndex bonds i)).takeWhile
        (fun b => decide (b.1 = i)) := List.take_subset _ _ hb
    have hmem := List.mem_takeWhile_imp hsub
    simpa using hmem
  · rw [hform ii jj, hform jj ii]
    refine congrArg List.sum (List.map_congr_left fun b _ => ?_)
    rw [mul_comm]
    congr 1
    by_cases hcase : ii = jj
    · rw [if_pos hcase, if_pos hcase.symm]
    · rw [if_neg hcase, if_neg (fun hc => hcase hc.symm)]

end Freud
